import Mathlib

/-!
Shallow embedding of `scripts/check_go_errors.py`, a line-oriented linter
that scans files for `fmt.Errorf("...")` call sites and checks that the
quoted message starts with the required wording `failed to`.

Lines of a file are modelled as lists of characters (without the trailing
newline, which the Python code strips anyway before display and which can
never occur inside a matched literal).  The regular expression
`ERROR_PATTERN = re.compile(r'fmt\.Errorf\("([^"]+)"')` together with
`ERROR_PATTERN.search` is embedded as `matchAt` (an anchored match attempt
at one position) and `searchLine` (leftmost search over all positions),
which is exactly Python's `re.search` semantics for this pattern: the
pattern matches at a position iff the text there starts with the literal
`fmt.Errorf("` followed by at least one non-quote character and then a
closing quote, and the (greedy) capture group is the maximal run of
non-quote characters after the opening quote.
-/

/-- `REQUIRED_WORDING = "failed to"` from the script. -/
def REQUIRED_WORDING : List Char := ("failed to".data)

/-- The literal part `fmt.Errorf("` of `ERROR_PATTERN`. -/
def errorfCallOpen : List Char := ("fmt.Errorf(\"".data)

/-- One anchored attempt of `ERROR_PATTERN` at the start of `s`: succeeds iff
`s` starts with `fmt.Errorf("`, at least one non-quote character follows, and
a closing quote follows the maximal run of non-quote characters; the capture
group `([^\"]+)` is that maximal run. -/
def matchAt (s : List Char) : Option (List Char) :=
  if errorfCallOpen.isPrefixOf s then
    let rest := s.drop errorfCallOpen.length
    let cap := rest.takeWhile (fun c => c != '\"')
    if cap.length = 0 then none
    else if (rest.drop cap.length).length = 0 then none
    else some cap
  else none

/-- `ERROR_PATTERN.search(line)`: the capture group of the leftmost position
of `line` at which the pattern matches, or `none`. -/
def searchLine : List Char → Option (List Char)
  | [] => none
  | c :: cs =>
    match matchAt (c :: cs) with
    | some cap => some cap
    | none => searchLine cs

/-- Python `str.strip()` on a line: remove leading and trailing whitespace. -/
def strip (s : List Char) : List Char :=
  ((s.dropWhile Char.isWhitespace).reverse.dropWhile Char.isWhitespace).reverse

/-- One entry of the list built by `check_file`, i.e. one formatted string
`f"{i}:{line.strip()}"`: the line number before the colon and the text after
it. -/
structure Violation where
  lineNum : Nat
  text : List Char
deriving DecidableEq, Repr

/-- The body of the `for i, line in enumerate(f, 1)` loop for one line:
search the line, and if the first match's captured message does not start
with `REQUIRED_WORDING`, record `f"{i}:{line.strip()}"`. -/
def checkLine (i : Nat) (line : List Char) : Option Violation :=
  match searchLine line with
  | some cap =>
    if REQUIRED_WORDING.isPrefixOf cap then none
    else some ⟨i, strip line⟩
  | none => none

/-- The whole loop of `check_file` over the lines of a readable file,
starting the 1-based counter at `k`. -/
def checkFrom (k : Nat) : List (List Char) → List Violation
  | [] => []
  | l :: ls => (checkLine k l).toList ++ checkFrom (k + 1) ls

/-- Outcome of opening and reading one path, as distinguished by the two
`except` clauses of `check_file`: the file is readable with the given lines,
or opening raises `FileNotFoundError`, or some other exception with message
`e` is raised while processing. -/
inductive FileResult where
  | ok (lines : List (List Char))
  | notFound
  | ioError (e : List Char)
deriving DecidableEq, Repr

/-- `check_file(filepath)` given the outcome `r` of the file system for
`filepath`: returns the list of formatted violation entries together with
the lines it prints to stderr. -/
def check_file (filepath : List Char) (r : FileResult) :
    List Violation × List (List Char) :=
  match r with
  | .ok lines => (checkFrom 1 lines, [])
  | .notFound =>
    ([⟨0, ("File not found: ".data) ++ filepath⟩],
     [("Error: File not found: ".data) ++ filepath])
  | .ioError e =>
    ([⟨0, ("Error processing file: ".data) ++ e⟩],
     [("Error processing file ".data) ++ filepath ++ (": ".data) ++ e])

/-- Rendering of one entry: `print(error_line)` prints `f"{i}:{text}"`. -/
def renderViolation (v : Violation) : List Char :=
  (toString v.lineNum).data ++ (":".data) ++ v.text

/-- The header `f"Error in {path}: The following error messages do not start
with '{REQUIRED_WORDING}':"` printed before a nonempty error list. -/
def headerLine (path : List Char) : List Char :=
  ("Error in ".data) ++ path ++
    (": The following error messages do not start with \x27".data) ++
    REQUIRED_WORDING ++ ("\x27:".data)

/-- The usage line `f"Usage: {sys.argv[0]} <file1.go> <file2.go> ..."`. -/
def usageLine (argv0 : List Char) : List Char :=
  ("Usage: ".data) ++ argv0 ++ (" <file1.go> <file2.go> ...".data)

/-- Observable result of a run of `main`: the argument of `sys.exit`, the
lines printed to standard output and the lines printed to standard error. -/
structure RunResult where
  exitCode : Nat
  stdout : List (List Char)
  stderr : List (List Char)
deriving DecidableEq, Repr

/-- The `for path in filepaths` loop of `main`, carrying the current value
of the `exit_code` variable.  Each iteration calls `check_file`; a nonempty
result sets `exit_code = 1` and prints the header, the entries and a blank
line. -/
def mainLoop (fs : List Char → FileResult) (ec : Nat) :
    List (List Char) → RunResult
  | [] => ⟨ec, [], []⟩
  | p :: ps =>
    match (check_file p (fs p)).1 with
    | [] =>
      let r := mainLoop fs ec ps
      ⟨r.exitCode, r.stdout, (check_file p (fs p)).2 ++ r.stderr⟩
    | e :: es =>
      let out := headerLine p :: (e :: es).map renderViolation ++ [[]]
      let r := mainLoop fs 1 ps
      ⟨r.exitCode, out ++ r.stdout, (check_file p (fs p)).2 ++ r.stderr⟩

/-- `main()` of the script (named `mainFn` because `main` is reserved):
`argv0` is `sys.argv[0]`, `args` is `sys.argv[1:]`, and `fs` gives the
outcome of opening each path.  With no path arguments it prints the usage
line and exits with status 1; otherwise it runs the loop starting from
`exit_code = 0` and exits with the final `exit_code`. -/
def mainFn (argv0 : List Char) (args : List (List Char))
    (fs : List Char → FileResult) : RunResult :=
  match args with
  | [] => ⟨1, [usageLine argv0], []⟩
  | p :: ps => mainLoop fs 0 (p :: ps)

/-- The standard-output block one path contributes in the loop of `main`:
nothing when `check_file` returns an empty list, otherwise the header line,
the rendered entries and a blank line. -/
def pathStdout (fs : List Char → FileResult) (p : List Char) :
    List (List Char) :=
  match (check_file p (fs p)).1 with
  | [] => []
  | e :: es => headerLine p :: (e :: es).map renderViolation ++ [[]]

/-- The standard-error lines one path contributes (printed by `check_file`). -/
def pathStderr (fs : List Char → FileResult) (p : List Char) :
    List (List Char) :=
  (check_file p (fs p)).2

/-- Concatenation of the standard-output blocks of a list of paths. -/
def pathsStdout (fs : List Char → FileResult) : List (List Char) → List (List Char)
  | [] => []
  | p :: ps => pathStdout fs p ++ pathsStdout fs ps

/-- Concatenation of the standard-error lines of a list of paths. -/
def pathsStderr (fs : List Char → FileResult) : List (List Char) → List (List Char)
  | [] => []
  | p :: ps => pathStderr fs p ++ pathsStderr fs ps

/-- Whether `check_file` returns a nonempty list for path `p`, i.e. whether
the iteration for `p` sets `exit_code = 1`. -/
def pathBad (fs : List Char → FileResult) (p : List Char) : Bool :=
  !(check_file p (fs p)).1.isEmpty

example : searchLine ("x := fmt.Errorf(\"failed to read\")".data) =
    some ("failed to read".data) := by rfl

example : searchLine ("y := fmt.Errorf(\"could not write\")".data) =
    some ("could not write".data) := by rfl

example : searchLine ("z := 5".data) = none := by rfl

example : searchLine ("a := fmt.Errorf(\"\")".data) = none := by rfl

example : searchLine ("w := fmt.Errorf(\"ab\\\" more\")".data) =
    some ("ab\\".data) := by rfl

example : searchLine ("w := fmt.Errorf(\"no closing quote".data) = none := by rfl

example :
    checkFrom 1 [("x := fmt.Errorf(\"failed to read\")".data),
                 ("y := fmt.Errorf(\"could not write\")".data),
                 ("z := 5".data)] =
      [⟨2, ("y := fmt.Errorf(\"could not write\")".data)⟩] := by rfl

/-! ## Basic facts about `checkLine` and `checkFrom` -/

lemma checkLine_lineNum {i : Nat} {l : List Char} {v : Violation}
    (h : checkLine i l = some v) : v.lineNum = i := by
  unfold checkLine at h
  cases hs : searchLine l with
  | none =>
    simp only [hs] at h
    exact Option.noConfusion h
  | some cap =>
    simp only [hs] at h
    by_cases hp : REQUIRED_WORDING.isPrefixOf cap = true
    · rw [if_pos hp] at h; cases h
    · rw [if_neg hp] at h
      cases h
      rfl

lemma checkLine_text {i : Nat} {l : List Char} {v : Violation}
    (h : checkLine i l = some v) : v.text = strip l := by
  unfold checkLine at h
  cases hs : searchLine l with
  | none =>
    simp only [hs] at h
    exact Option.noConfusion h
  | some cap =>
    simp only [hs] at h
    by_cases hp : REQUIRED_WORDING.isPrefixOf cap = true
    · rw [if_pos hp] at h; cases h
    · rw [if_neg hp] at h
      cases h
      rfl

lemma checkFrom_lineNum_ge {k : Nat} {ls : List (List Char)} {v : Violation}
    (h : v ∈ checkFrom k ls) : k ≤ v.lineNum := by
  induction ls generalizing k with
  | nil => cases h
  | cons l ls ih =>
    rw [checkFrom] at h
    rcases List.mem_append.mp h with h1 | h2
    · cases hc : checkLine k l with
      | none => rw [hc] at h1; cases h1
      | some v0 =>
        rw [hc] at h1
        simp only [Option.toList, List.mem_singleton] at h1
        subst h1
        exact (checkLine_lineNum hc).ge
    · exact le_trans (Nat.le_succ k) (ih h2)

lemma checkLine_eq_none_iff (i : Nat) (l : List Char) :
    checkLine i l = none ↔
      ∀ cap, searchLine l = some cap → REQUIRED_WORDING.isPrefixOf cap = true := by
  unfold checkLine
  cases hs : searchLine l with
  | none =>
    simp only [hs]
    exact ⟨fun _ cap hc => Option.noConfusion hc, fun _ => trivial⟩
  | some cap =>
    simp only [hs]
    by_cases hp : REQUIRED_WORDING.isPrefixOf cap = true
    · rw [if_pos hp]
      refine ⟨fun _ cap2 hc => ?_, fun _ => rfl⟩
      injection hc with h2
      subst h2
      exact hp
    · rw [if_neg hp]
      refine ⟨fun hc => Option.noConfusion hc, fun hall => ?_⟩
      exact absurd (hall cap rfl) hp

lemma checkFrom_eq_nil_iff (k : Nat) (ls : List (List Char)) :
    checkFrom k ls = [] ↔
      ∀ l ∈ ls, ∀ cap, searchLine l = some cap →
        REQUIRED_WORDING.isPrefixOf cap = true := by
  induction ls generalizing k with
  | nil => simp [checkFrom]
  | cons l ls ih =>
    rw [checkFrom, List.append_eq_nil, List.forall_mem_cons, ih (k + 1),
      ← checkLine_eq_none_iff k l]
    cases hc : checkLine k l <;> simp [hc]

lemma checkFrom_pairwise (k : Nat) (ls : List (List Char)) :
    (checkFrom k ls).Pairwise (fun a b => a.lineNum < b.lineNum) := by
  induction ls generalizing k with
  | nil => exact List.Pairwise.nil
  | cons l ls ih =>
    rw [checkFrom, List.pairwise_append]
    refine ⟨?_, ih (k + 1), ?_⟩
    · cases hc : checkLine k l with
      | none => exact List.Pairwise.nil
      | some v => exact List.pairwise_singleton _ v
    · intro a ha b hb
      have hk : a.lineNum = k := by
        cases hc : checkLine k l with
        | none => rw [hc] at ha; cases ha
        | some v =>
          rw [hc] at ha
          simp only [Option.toList, List.mem_singleton] at ha
          subst ha
          exact checkLine_lineNum hc
      have hb1 : k + 1 ≤ b.lineNum := checkFrom_lineNum_ge hb
      omega

lemma checkFrom_filter (k : Nat) (ls : List (List Char)) (j : Nat)
    (h : j < ls.length) :
    (checkFrom k ls).filter (fun v => v.lineNum == k + j) =
      (checkLine (k + j) (ls.get ⟨j, h⟩)).toList := by
  induction ls generalizing k j with
  | nil => cases h
  | cons l ls ih =>
    rw [checkFrom, List.filter_append]
    cases j with
    | zero =>
      have htail : (checkFrom (k + 1) ls).filter (fun v => v.lineNum == k + 0) = [] := by
        rw [List.filter_eq_nil_iff]
        intro v hv
        have := checkFrom_lineNum_ge hv
        simp only [beq_iff_eq]
        omega
      rw [htail, List.append_nil]
      cases hc : checkLine k l with
      | none => simp [Nat.add_zero, hc]
      | some v =>
        have hk : v.lineNum = k := checkLine_lineNum hc
        simp [Nat.add_zero, hc, hk]
    | succ j =>
      have hhead : ((checkLine k l).toList).filter (fun v => v.lineNum == k + (j + 1)) = [] := by
        rw [List.filter_eq_nil_iff]
        intro v hv
        cases hc : checkLine k l with
        | none => rw [hc] at hv; cases hv
        | some v0 =>
          rw [hc] at hv
          simp only [Option.toList, List.mem_singleton] at hv
          subst hv
          have := checkLine_lineNum hc
          simp only [beq_iff_eq]
          omega
      rw [hhead, List.nil_append]
      have hidx : k + (j + 1) = (k + 1) + j := by omega
      simp only [hidx]
      exact ih (k + 1) j (Nat.lt_of_succ_lt_succ h)

lemma checkFrom_countP_le_one (k j : Nat) (ls : List (List Char)) :
    (checkFrom k ls).countP (fun v => v.lineNum == j) ≤ 1 := by
  induction ls generalizing k with
  | nil => simp [checkFrom]
  | cons l ls ih =>
    rw [checkFrom, List.countP_append]
    by_cases hkj : k = j
    · have htail : (checkFrom (k + 1) ls).countP (fun v => v.lineNum == j) = 0 := by
        rw [List.countP_eq_zero]
        intro v hv
        have := checkFrom_lineNum_ge hv
        simp only [beq_iff_eq]
        omega
      have hhead : ((checkLine k l).toList).countP (fun v => v.lineNum == j) ≤ 1 := by
        cases hc : checkLine k l with
        | none => simp
        | some v =>
          simp [List.countP_cons]
          split <;> omega
      omega
    · have hhead : ((checkLine k l).toList).countP (fun v => v.lineNum == j) = 0 := by
        rw [List.countP_eq_zero]
        intro v hv
        cases hc : checkLine k l with
        | none => rw [hc] at hv; cases hv
        | some v0 =>
          rw [hc] at hv
          simp only [Option.toList, List.mem_singleton] at hv
          subst hv
          have := checkLine_lineNum hc
          simp only [beq_iff_eq]
          omega
      rw [hhead, Nat.zero_add]
      exact ih (k + 1)

/-! ## Structure of a successful match -/

lemma dropWhile_head_false {α : Type} (p : α → Bool) :
    ∀ (l : List α) (c : α) (cs : List α), l.dropWhile p = c :: cs → p c = false := by
  intro l
  induction l with
  | nil => intro c cs h; cases h
  | cons x xs ih =>
    intro c cs h
    rw [List.dropWhile_cons] at h
    by_cases hx : p x = true
    · rw [if_pos hx] at h
      exact ih c cs h
    · rw [if_neg hx] at h
      cases h
      exact Bool.not_eq_true _ |>.mp hx

lemma matchAt_eq_some {s cap : List Char} (h : matchAt s = some cap) :
    cap ≠ [] ∧ (∀ c ∈ cap, c ≠ '\"') ∧
      ∃ rest, s = errorfCallOpen ++ cap ++ '\"' :: rest := by
  unfold matchAt at h
  by_cases hp : errorfCallOpen.isPrefixOf s = true
  · rw [if_pos hp] at h
    obtain ⟨t, ht⟩ := List.isPrefixOf_iff_prefix.mp hp
    have hdrop : s.drop errorfCallOpen.length = t := by
      rw [← ht, List.drop_left]
    rw [hdrop] at h
    by_cases h1 : (t.takeWhile (fun c => c != '\"')).length = 0
    · rw [if_pos h1] at h; cases h
    · rw [if_neg h1] at h
      by_cases h2 : (t.drop (t.takeWhile (fun c => c != '\"')).length).length = 0
      · rw [if_pos h2] at h; cases h
      · rw [if_neg h2] at h
        cases h
        have hsplit := List.takeWhile_append_dropWhile (fun c => c != '\"') t
        have hgen : ∀ (a b : List Char), a ++ b = t → t.drop a.length = b := by
          intro a b hab
          rw [← hab, List.drop_left]
        have hd : t.drop (t.takeWhile (fun c => c != '\"')).length =
            t.dropWhile (fun c => c != '\"') := hgen _ _ hsplit
        refine ⟨fun he => h1 (by rw [he] ; rfl), ?_, ?_⟩
        · intro c hc
          have := List.mem_takeWhile_imp hc
          exact bne_iff_ne.mp this
        · rw [hd] at h2
          cases hdw : t.dropWhile (fun c => c != '\"') with
          | nil => rw [hdw] at h2; exact absurd rfl h2
          | cons c cs =>
            have hc : (c != '\"') = false := dropWhile_head_false _ t c cs hdw
            have hcq : c = '\"' := by simpa using hc
            refine ⟨cs, ?_⟩
            rw [← ht]
            conv_lhs => rw [← hsplit]
            rw [hdw, hcq, List.append_assoc]
  · rw [if_neg hp] at h; cases h

lemma searchLine_eq_some {line cap : List Char} (h : searchLine line = some cap) :
    ∃ n, matchAt (line.drop n) = some cap ∧
      ∀ m, m < n → matchAt (line.drop m) = none := by
  induction line with
  | nil => cases h
  | cons c cs ih =>
    rw [searchLine] at h
    cases hm : matchAt (c :: cs) with
    | some cap2 =>
      rw [hm] at h
      cases h
      exact ⟨0, hm, fun m hm0 => absurd hm0 (Nat.not_lt_zero m)⟩
    | none =>
      rw [hm] at h
      obtain ⟨n, h1, h2⟩ := ih h
      refine ⟨n + 1, by rw [List.drop_succ_cons]; exact h1, ?_⟩
      intro m hmn
      cases m with
      | zero => exact hm
      | succ m =>
        rw [List.drop_succ_cons]
        exact h2 m (Nat.lt_of_succ_lt_succ hmn)

/-! ## Facts about `check_file`, `mainLoop` and `mainFn` -/

lemma check_file_fst_eq_nil_iff (p : List Char) (r : FileResult) :
    (check_file p r).1 = [] ↔
      ∃ lines, r = FileResult.ok lines ∧ checkFrom 1 lines = [] := by
  cases r <;> simp [check_file]

lemma mainLoop_stdout (fs : List Char → FileResult) (ps : List (List Char)) :
    ∀ ec, (mainLoop fs ec ps).stdout = pathsStdout fs ps := by
  induction ps with
  | nil => intro ec; rfl
  | cons p ps ih =>
    intro ec
    rw [mainLoop, pathsStdout]
    cases hc : (check_file p (fs p)).1 with
    | nil => simp [hc, ih, pathStdout]
    | cons e es => simp [hc, ih, pathStdout]

lemma mainLoop_stderr (fs : List Char → FileResult) (ps : List (List Char)) :
    ∀ ec, (mainLoop fs ec ps).stderr = pathsStderr fs ps := by
  induction ps with
  | nil => intro ec; rfl
  | cons p ps ih =>
    intro ec
    rw [mainLoop, pathsStderr]
    cases hc : (check_file p (fs p)).1 with
    | nil => simp [hc, ih, pathStderr]
    | cons e es => simp [hc, ih, pathStderr]

lemma mainLoop_exitCode (fs : List Char → FileResult) (ps : List (List Char)) :
    ∀ ec, (mainLoop fs ec ps).exitCode =
      if ps.any (pathBad fs) then 1 else ec := by
  induction ps with
  | nil => intro ec; rfl
  | cons p ps ih =>
    intro ec
    rw [mainLoop, List.any_cons]
    cases hc : (check_file p (fs p)).1 with
    | nil =>
      have hb : pathBad fs p = false := by simp [pathBad, hc]
      simp [hc, ih, hb]
    | cons e es =>
      have hb : pathBad fs p = true := by simp [pathBad, hc]
      simp [hc, ih, hb]

lemma mainFn_eq_mainLoop (argv0 : List Char) (fs : List Char → FileResult) :
    ∀ args, args ≠ [] → mainFn argv0 args fs = mainLoop fs 0 args
  | [], h => absurd rfl h
  | _ :: _, _ => rfl

lemma pathsStdout_append (fs : List Char → FileResult) (a b : List (List Char)) :
    pathsStdout fs (a ++ b) = pathsStdout fs a ++ pathsStdout fs b := by
  induction a with
  | nil => rfl
  | cons p ps ih => simp [pathsStdout, ih]

lemma pathsStderr_append (fs : List Char → FileResult) (a b : List (List Char)) :
    pathsStderr fs (a ++ b) = pathsStderr fs a ++ pathsStderr fs b := by
  induction a with
  | nil => rfl
  | cons p ps ih => simp [pathsStderr, ih]

lemma pathBad_false_iff (fs : List Char → FileResult) (p : List Char) :
    pathBad fs p = false ↔
      ∃ lines, fs p = FileResult.ok lines ∧
        ∀ l ∈ lines, ∀ cap, searchLine l = some cap →
          REQUIRED_WORDING.isPrefixOf cap = true := by
  have h0 : pathBad fs p = false ↔ (check_file p (fs p)).1 = [] := by
    simp [pathBad]
  rw [h0, check_file_fst_eq_nil_iff]
  constructor
  · rintro ⟨lines, hok, hnil⟩
    exact ⟨lines, hok, (checkFrom_eq_nil_iff 1 lines).mp hnil⟩
  · rintro ⟨lines, hok, hall⟩
    exact ⟨lines, hok, (checkFrom_eq_nil_iff 1 lines).mpr hall⟩

lemma any_pathBad_false_iff (fs : List Char → FileResult) (args : List (List Char)) :
    args.any (pathBad fs) = false ↔
      ∀ p ∈ args, ∃ lines, fs p = FileResult.ok lines ∧
        ∀ l ∈ lines, ∀ cap, searchLine l = some cap →
          REQUIRED_WORDING.isPrefixOf cap = true := by
  rw [List.any_eq_false]
  constructor
  · intro hall p hp
    exact (pathBad_false_iff fs p).mp (Bool.of_not_eq_true (hall p hp))
  · intro hall p hp
    rw [Bool.not_eq_true]
    exact (pathBad_false_iff fs p).mpr (hall p hp)

lemma checkLine_of_compliant {i : Nat} {l cap : List Char}
    (hs : searchLine l = some cap)
    (hp : REQUIRED_WORDING.isPrefixOf cap = true) :
    checkLine i l = none := by
  unfold checkLine
  rw [hs]
  simp only [hp, if_pos]

lemma checkLine_of_violating {i : Nat} {l cap : List Char}
    (hs : searchLine l = some cap)
    (hp : REQUIRED_WORDING.isPrefixOf cap = false) :
    checkLine i l = some ⟨i, strip l⟩ := by
  unfold checkLine
  rw [hs]
  simp [hp]

/-! ## The claims -/

/-- C1: for every invocation with at least one path argument, the process
exits with status 0 iff every listed file was opened and read without error
and every captured error-construction message in every file starts with the
required prefix `failed to`; it exits with status 1 otherwise (some path
unreadable or some captured message not starting with the prefix). -/
theorem claim_C1 (argv0 : List Char) (args : List (List Char))
    (fs : List Char → FileResult) (h : args ≠ []) :
    ((mainFn argv0 args fs).exitCode = 0 ↔
      ∀ p ∈ args, ∃ lines, fs p = FileResult.ok lines ∧
        ∀ l ∈ lines, ∀ cap, searchLine l = some cap →
          REQUIRED_WORDING.isPrefixOf cap = true)
    ∧ ((mainFn argv0 args fs).exitCode = 1 ↔
      ¬ ∀ p ∈ args, ∃ lines, fs p = FileResult.ok lines ∧
        ∀ l ∈ lines, ∀ cap, searchLine l = some cap →
          REQUIRED_WORDING.isPrefixOf cap = true) := by
  rw [mainFn_eq_mainLoop argv0 fs args h, mainLoop_exitCode,
    ← any_pathBad_false_iff fs args]
  cases hany : args.any (pathBad fs) with
  | true =>
    rw [if_pos rfl]
    constructor
    · exact ⟨fun h10 => absurd h10 (by decide),
        fun hfalse => Bool.noConfusion hfalse⟩
    · exact ⟨fun _ htf => Bool.noConfusion htf, fun _ => rfl⟩
  | false =>
    rw [if_neg (by simp)]
    constructor
    · exact ⟨fun _ => rfl, fun _ => rfl⟩
    · exact ⟨fun h01 => absurd h01 (by decide), fun hne => absurd rfl hne⟩

/-- Witness for C1 at a concrete input: one readable file whose single
message starts with the required wording, so the exit status is 0. -/
theorem claim_C1_witness :
    (mainFn ("check_go_errors.py".data) [("app.go".data)]
      (fun _ => FileResult.ok
        [("x := fmt.Errorf(\"failed to read\")".data)])).exitCode = 0 := by
  refine (claim_C1 ("check_go_errors.py".data) [("app.go".data)]
    (fun _ => FileResult.ok [("x := fmt.Errorf(\"failed to read\")".data)])
    (by simp)).1.mpr ?_
  intro q hq
  refine ⟨_, rfl, ?_⟩
  intro l hl cap hcap
  simp only [List.mem_singleton] at hl
  subst hl
  have h0 : searchLine ("x := fmt.Errorf(\"failed to read\")".data) =
      some ("failed to read".data) := rfl
  rw [h0] at hcap
  injection hcap with h1
  subst h1
  decide

/-- C2: on every line of a readable file where the pattern matches, the
captured string is compared to `failed to` by an exact starts-with test on
the raw capture: if it begins with the prefix, no entry with that line's
1-based number is recorded; otherwise exactly one entry is recorded, with
the correct 1-based line number and the stripped original line text. -/
theorem claim_C2 (lines : List (List Char)) (j : Nat) (h : j < lines.length)
    (cap : List Char) (hs : searchLine (lines.get ⟨j, h⟩) = some cap) :
    (REQUIRED_WORDING.isPrefixOf cap = true →
      (checkFrom 1 lines).filter (fun v => v.lineNum == j + 1) = [])
    ∧ (REQUIRED_WORDING.isPrefixOf cap = false →
      (checkFrom 1 lines).filter (fun v => v.lineNum == j + 1) =
        [⟨j + 1, strip (lines.get ⟨j, h⟩)⟩]) := by
  have hf := checkFrom_filter 1 lines j h
  have hj : 1 + j = j + 1 := Nat.add_comm 1 j
  simp only [hj] at hf
  constructor
  · intro hp
    rw [hf, checkLine_of_compliant hs hp]
    rfl
  · intro hp
    rw [hf, checkLine_of_violating hs hp]
    rfl

/-- Witness for C2 at a concrete input: a one-line file whose captured
message `could not x` does not start with the prefix, giving exactly the
entry for line 1. -/
theorem claim_C2_witness :
    (checkFrom 1 [("a := fmt.Errorf(\"could not x\")".data)]).filter
        (fun v => v.lineNum == 0 + 1) =
      [⟨0 + 1, strip ([("a := fmt.Errorf(\"could not x\")".data)].get
        ⟨0, by decide⟩)⟩] :=
  (claim_C2 [("a := fmt.Errorf(\"could not x\")".data)] 0 (by decide)
    ("could not x".data) rfl).2 (by decide)

/-- C3: a successful match never extends across a double quote: the capture
is nonempty, contains no double-quote character (so an escaped quote `\"`
ends it at the backslash), and the matched span lies on the line as
`fmt.Errorf("` followed by the capture and a closing quote — hence a literal
with no closing quote on the line yields no match at that call site. -/
theorem claim_C3 (line cap : List Char) (h : searchLine line = some cap) :
    cap ≠ [] ∧ (∀ c ∈ cap, c ≠ '\"')
    ∧ ∃ pre rest, line = pre ++ errorfCallOpen ++ cap ++ '\"' :: rest := by
  obtain ⟨n, hm, -⟩ := searchLine_eq_some h
  obtain ⟨hne, hq, rest, hr⟩ := matchAt_eq_some hm
  refine ⟨hne, hq, line.take n, rest, ?_⟩
  have hsplit := List.take_append_drop n line
  rw [hr] at hsplit
  simpa [List.append_assoc] using hsplit.symm

/-- Witness for C3 at a concrete input: a line whose literal contains an
escaped quote; the capture stops at the backslash before the quote. -/
theorem claim_C3_witness :
    ("ab\\".data) ≠ [] ∧ (∀ c ∈ ("ab\\".data), c ≠ '\"')
    ∧ ∃ pre rest, ("w := fmt.Errorf(\"ab\\\" more\")".data) =
        pre ++ errorfCallOpen ++ ("ab\\".data) ++ '\"' :: rest :=
  claim_C3 ("w := fmt.Errorf(\"ab\\\" more\")".data) ("ab\\".data) rfl

/-- C4: a line records at most one entry (for any candidate line number the
scan of a file yields at most one entry with that number), and a matched
line's capture is determined solely by the leftmost position at which the
pattern matches: every earlier position fails to match. -/
theorem claim_C4 (lines : List (List Char)) (j : Nat) (line cap : List Char)
    (h : searchLine line = some cap) :
    (checkFrom 1 lines).countP (fun v => v.lineNum == j) ≤ 1
    ∧ ∃ n, matchAt (line.drop n) = some cap ∧
        ∀ m, m < n → matchAt (line.drop m) = none :=
  ⟨checkFrom_countP_le_one 1 j lines, searchLine_eq_some h⟩

/-- Witness for C4 at a concrete input: a line with two call sites; the
recorded capture is that of the leftmost one. -/
theorem claim_C4_witness :
    (checkFrom 1 [("a := fmt.Errorf(\"x\") ; b := fmt.Errorf(\"y\")".data)]).countP
        (fun v => v.lineNum == 1) ≤ 1
    ∧ ∃ n, matchAt ((("a := fmt.Errorf(\"x\") ; b := fmt.Errorf(\"y\")".data)).drop n) =
          some ("x".data) ∧
        ∀ m, m < n →
          matchAt ((("a := fmt.Errorf(\"x\") ; b := fmt.Errorf(\"y\")".data)).drop m) = none :=
  claim_C4 [("a := fmt.Errorf(\"x\") ; b := fmt.Errorf(\"y\")".data)] 1
    ("a := fmt.Errorf(\"x\") ; b := fmt.Errorf(\"y\")".data) ("x".data) rfl

/-- C5: for every path that cannot be opened or read, the run prints a
diagnostic naming that path to standard error, represents the file by a
single synthetic entry with line number 0 and a descriptive message, exits
with status 1, and still processes every other path (the output decomposes
into the per-path contributions of the paths before and after it). -/
theorem claim_C5 (argv0 p : List Char) (l1 l2 : List (List Char))
    (fs : List Char → FileResult) (h : ∀ lines, fs p ≠ FileResult.ok lines) :
    (mainFn argv0 (l1 ++ p :: l2) fs).exitCode = 1
    ∧ (∃ d, d ∈ (mainFn argv0 (l1 ++ p :: l2) fs).stderr ∧ p <:+: d)
    ∧ (∃ m, (check_file p (fs p)).1 = [⟨0, m⟩])
    ∧ (mainFn argv0 (l1 ++ p :: l2) fs).stdout =
        pathsStdout fs l1 ++ pathStdout fs p ++ pathsStdout fs l2
    ∧ (mainFn argv0 (l1 ++ p :: l2) fs).stderr =
        pathsStderr fs l1 ++ pathStderr fs p ++ pathsStderr fs l2 := by
  have hne : l1 ++ p :: l2 ≠ [] := by simp
  have hm := mainFn_eq_mainLoop argv0 fs (l1 ++ p :: l2) hne
  have hbad : pathBad fs p = true := by
    cases hr : fs p with
    | ok lines => exact absurd hr (h lines)
    | notFound => simp [pathBad, check_file, hr]
    | ioError e => simp [pathBad, check_file, hr]
  have hany : (l1 ++ p :: l2).any (pathBad fs) = true :=
    List.any_eq_true.mpr ⟨p, by simp, hbad⟩
  have hserr : (mainFn argv0 (l1 ++ p :: l2) fs).stderr =
      pathsStderr fs l1 ++ pathStderr fs p ++ pathsStderr fs l2 := by
    rw [hm, mainLoop_stderr, pathsStderr_append]
    simp [pathsStderr, List.append_assoc]
  refine ⟨?_, ?_, ?_, ?_, hserr⟩
  · rw [hm, mainLoop_exitCode, if_pos hany]
  · cases hr : fs p with
    | ok lines => exact absurd hr (h lines)
    | notFound =>
      refine ⟨("Error: File not found: ".data) ++ p, ?_, ?_⟩
      · rw [hserr]
        refine List.mem_append_left _ (List.mem_append_right _ ?_)
        simp [pathStderr, check_file, hr]
      · exact ⟨("Error: File not found: ".data), [], by simp⟩
    | ioError e =>
      refine ⟨("Error processing file ".data) ++ p ++ (": ".data) ++ e, ?_, ?_⟩
      · rw [hserr]
        refine List.mem_append_left _ (List.mem_append_right _ ?_)
        simp [pathStderr, check_file, hr]
      · exact ⟨("Error processing file ".data), (": ".data) ++ e, by
          simp [List.append_assoc]⟩
  · cases hr : fs p with
    | ok lines => exact absurd hr (h lines)
    | notFound => exact ⟨("File not found: ".data) ++ p, rfl⟩
    | ioError e => exact ⟨("Error processing file: ".data) ++ e, rfl⟩
  · rw [hm, mainLoop_stdout, pathsStdout_append]
    simp [pathsStdout, List.append_assoc]

/-- Witness for C5 at a concrete input: a single nonexistent path makes the
run exit with status 1. -/
theorem claim_C5_witness :
    (mainFn ("check_go_errors.py".data) [("missing.go".data)]
      (fun _ => FileResult.notFound)).exitCode = 1 :=
  (claim_C5 ("check_go_errors.py".data) ("missing.go".data) [] []
    (fun _ => FileResult.notFound)
    (fun _ hc => FileResult.noConfusion hc)).1

/-- C6: with zero path arguments the process prints the usage message to
standard output and exits with status 1, and it does this without consulting
the file system at all (the result is the same for every file system). -/
theorem claim_C6 (argv0 : List Char) (fs fs2 : List Char → FileResult) :
    mainFn argv0 [] fs = ⟨1, [usageLine argv0], []⟩
    ∧ mainFn argv0 [] fs = mainFn argv0 [] fs2 :=
  ⟨rfl, rfl⟩

/-- C7: for every readable file the scan result is in strictly increasing
line-number order, and it is empty exactly when no line has a first match
whose captured message fails to start with the required wording. -/
theorem claim_C7 (lines : List (List Char)) :
    (checkFrom 1 lines).Pairwise (fun a b => a.lineNum < b.lineNum)
    ∧ (checkFrom 1 lines = [] ↔
      ∀ l ∈ lines, ∀ cap, searchLine l = some cap →
        REQUIRED_WORDING.isPrefixOf cap = true) :=
  ⟨checkFrom_pairwise 1 lines, checkFrom_eq_nil_iff 1 lines⟩

/-- C8: the scanner is deterministic: scanning the same unmodified file
contents twice yields identical ordered result sequences. -/
theorem claim_C8 (contents1 contents2 : List (List Char))
    (h : contents1 = contents2) :
    checkFrom 1 contents1 = checkFrom 1 contents2 := by
  rw [h]

/-- Witness for C8 at a concrete input. -/
theorem claim_C8_witness :
    checkFrom 1 [("y := fmt.Errorf(\"could not write\")".data)] =
      checkFrom 1 [("y := fmt.Errorf(\"could not write\")".data)] :=
  claim_C8 [("y := fmt.Errorf(\"could not write\")".data)]
    [("y := fmt.Errorf(\"could not write\")".data)] rfl

/-- C9: on the specific three-line file the run records exactly one entry,
at line 2, whose text is the trimmed original second line, and the process
exits with status 1. -/
theorem claim_C9 :
    checkFrom 1 [("x := fmt.Errorf(\"failed to read\")".data),
                 ("y := fmt.Errorf(\"could not write\")".data),
                 ("z := 5".data)] =
      [⟨2, ("y := fmt.Errorf(\"could not write\")".data)⟩]
    ∧ (mainFn ("check_go_errors.py".data) [("input.go".data)]
        (fun _ => FileResult.ok
          [("x := fmt.Errorf(\"failed to read\")".data),
           ("y := fmt.Errorf(\"could not write\")".data),
           ("z := 5".data)])).exitCode = 1 :=
  ⟨rfl, rfl⟩

/-- C10: an empty string literal never matches, because the pattern needs at
least one character between the quotes: an attempt at a call site
`fmt.Errorf("")` fails for every continuation of the line, and a file whose
only line is such a call yields no entry even though the empty message does
not start with the required wording. -/
theorem claim_C10 (rest : List Char) :
    matchAt (errorfCallOpen ++ '\"' :: rest) = none
    ∧ checkFrom 1 [("y := fmt.Errorf(\"\")".data)] = [] := by
  constructor
  · have h1 : errorfCallOpen.isPrefixOf (errorfCallOpen ++ '\"' :: rest) = true :=
      List.isPrefixOf_iff_prefix.mpr ⟨'\"' :: rest, rfl⟩
    unfold matchAt
    rw [if_pos h1, List.drop_left]
    simp [List.takeWhile_cons]
  · rfl
